import Mathlib

/-!
# Faucet: nonce-serialised funding and bounded confirmation polling

A shallow embedding of `faucet/faucet.go`.

* The remote node (`obsclient.AuthObsClient`), the wallet, the JSON encoders and the
  clock are outside the repository. What they answer during one call is collected in
  an `Env`; every function is total in it, so every theorem quantifies over all
  answers the outside world can give.
* The error results of `json.Marshal(signedTx)` and of `receipt.MarshalJSON()` are
  answers of the `Env` as well, since `faucet.go` tests them. The encoders of
  go-ethereum have no failing path for these two types, so a statement about what
  the code does for real inputs takes their success as a hypothesis, where it
  matters.
* `fundMutex` makes the bodies of `fundNativeToken` run one at a time; a sequence of
  calls is therefore a fold of `Faucet.fundNativeToken` over the cached nonce.
* Every function returns, next to its Go result, the list of interactions it had with
  the node, the wallet, the clock and standard output (`Event`).
* `uint64` arithmetic is `Nat` arithmetic modulo `2 ^ 64`; `time.Duration` is a number
  of nanoseconds.
-/

/-- Format strings of the `fmt.Errorf` calls of `faucet.go` (arguments other than the
wrapped cause are not kept). -/
inductive Msg where
  | unableToConnect          -- "unable to connect with the node: %w"
  | unableToFetchNonce       -- "unable to fetch %s nonce: %w"
  | tokenNotFundable         -- "token not fundable atm"
  | unableToValidateTx       -- "unable to validate tx %s: %w"
  | couldNotRetrieveReceipt  -- "could not retrieve transaction receipt in eth_getTransactionReceipt request. Cause: %w"
  | couldNotMarshalReceipt   -- "could not marshal transaction receipt to JSON in eth_getTransactionReceipt request. Cause: %w"
  | txStatusNot1             -- "tx status is not 0x1"
  | unableToFetchReceipt     -- "unable to fetch tx receipt after %s"
deriving DecidableEq, Repr

/-- Go `error` values: the sentinel `rpcclientlib.ErrNilResponse`, any other error made
outside the repository, and the errors `faucet.go` makes with `fmt.Errorf`, without
(`errorf`) or with (`errorfW`) a wrapped cause. -/
inductive Error where
  | ErrNilResponse
  | external (code : Nat)
  | errorf (m : Msg)
  | errorfW (m : Msg) (cause : Error)
deriving DecidableEq, Repr

/-- The test `errors.Is(err, rpcclientlib.ErrNilResponse)`: the error is the sentinel or
wraps it, at any depth. -/
def errorsIsErrNilResponse : Error → Bool
  | .ErrNilResponse => true
  | .errorfW _ cause => errorsIsErrNilResponse cause
  | _ => false

/-- A `common.Address`. -/
abbrev Address := Nat

/-- Fields of `types.LegacyTx` that `fundNativeToken` sets. -/
structure LegacyTx where
  Nonce : Nat
  GasPrice : Nat
  Gas : Nat
  To : Address
  Value : Nat
deriving DecidableEq, Repr

/-- The signature values a wallet adds to a transaction. -/
structure Signature where
  V : Nat
  R : Nat
  S : Nat
deriving DecidableEq, Repr

/-- A signed `types.Transaction`: the transaction data it was made from, with the
signature. -/
structure Transaction where
  inner : LegacyTx
  sig : Signature
deriving DecidableEq, Repr

/-- A `types.Receipt`; `validateTx` reads its `Status` only. -/
structure Receipt where
  Status : Nat
deriving DecidableEq, Repr

/-- Interactions of the faucet with the node, the wallet, the clock and standard
output, in the order they happen. -/
inductive Event where
  | nonceAt                                           -- client.NonceAt
  | signTransaction (tx : LegacyTx)                   -- wallet.SignTransaction
  | sendTransaction (tx : Transaction)                -- client.SendTransaction
  | transactionReceipt (hash : Nat)                   -- client.TransactionReceipt
  | sleep (d : Nat)                                   -- time.Sleep
  | printf (address : Address) (tx : Transaction)     -- fmt.Printf of the funded address and tx
  | println (receipt : Receipt)                       -- fmt.Println of the receipt
deriving DecidableEq, Repr

/-- What the outside world answers during one call of `Fund`.

* `nonceAt`, `signTransaction`, `sendTransaction`: the results of the node's nonce
  query, of the wallet's signing and of the submission;
* `marshalTx`: the error of `json.Marshal(signedTx)`, if any;
* `txHash`: `tx.Hash()`;
* `transactionReceipt i`: the result of the `i`-th receipt query of the polling loop
  (counted from 0);
* `marshalReceipt r`: the error of `r.MarshalJSON()`, if any;
* `gap 0`: the time from `time.Now()` to the first evaluation of the loop condition;
  `queryNanos i`: the time the `i`-th iteration's body takes (the receipt query);
  `gap (i + 1)`: the time by which the pause after the `i`-th iteration exceeds the
  requested second (`time.Sleep` pauses for at least the duration asked). -/
structure Env where
  nonceAt : Except Error Nat
  signTransaction : Except Error Signature
  sendTransaction : Option Error
  marshalTx : Option Error
  txHash : Transaction → Nat
  transactionReceipt : Nat → Except Error Receipt
  marshalReceipt : Receipt → Option Error
  queryNanos : Nat → Nat
  gap : Nat → Nat

/-- Nanoseconds in `time.Second`. -/
def second : Nat := 1000000000

/-- The confirmation timeout, `30 * time.Second`. -/
def _timeout : Nat := 30 * second

/-- The native token identifier. -/
def OBXNativeToken : String := "obx"

/-- The constant `params.Ether`. -/
def Ether : Nat := 1000000000000000000

/-- The state of a `Faucet` that its methods read and write: the cached nonce. The
client and the wallet are answered by `Env`. -/
structure Faucet where
  nonce : Nat
deriving DecidableEq, Repr

/-- The result pair `(*types.Transaction, error)` of `fundNativeToken`: either an error,
with the signed transaction when there is one, or a signed transaction and no error. -/
inductive NativeResult where
  | failed (signedTx : Option Transaction) (err : Error)
  | done (signedTx : Transaction)
deriving DecidableEq, Repr

/-- `NewFaucet`: connect (`dial` is the error of `obsclient.DialWithAuth`, if any), then
fetch the account nonce and cache it. -/
def NewFaucet (dial : Option Error) (nonceAt : Except Error Nat) : Except Error Faucet :=
  match dial with
  | some err => .error (.errorfW .unableToConnect err)
  | none =>
    match nonceAt with
    | .error err => .error (.errorfW .unableToFetchNonce err)
    | .ok nonce => .ok { nonce := nonce }

/-- `Faucet.fundNativeToken`, the critical section under `fundMutex`. -/
def Faucet.fundNativeToken (f : Faucet) (env : Env) (address : Address) :
    NativeResult × Faucet × List Event :=
  match env.nonceAt with
  | .error err => (.failed none (.errorfW .unableToFetchNonce err), f, [.nonceAt])
  | .ok nonce =>
    let gas := 21000
    let tx : LegacyTx :=
      { Nonce := f.nonce, GasPrice := 225, Gas := gas, To := address, Value := 100000 * Ether }
    match env.signTransaction with
    | .error err => (.failed none err, f, [.nonceAt, .signTransaction tx])
    | .ok sig =>
      let signedTx : Transaction := { inner := tx, sig := sig }
      match env.sendTransaction with
      | some err =>
        (.failed (some signedTx) err, f,
          [.nonceAt, .signTransaction tx, .sendTransaction signedTx])
      | none =>
        (.done signedTx, { f with nonce := (nonce + 1) % 2 ^ 64 },
          [.nonceAt, .signTransaction tx, .sendTransaction signedTx])

/-- The loop of `validateTx` from the evaluation of its condition before the `i`-th
query, at which `time.Since(now)` is `elapsed`. -/
def validateLoop (env : Env) (tx : Transaction) (i elapsed : Nat) : Option Error × List Event :=
  if elapsed < _timeout then
    match env.transactionReceipt i with
    | .error err =>
      if errorsIsErrNilResponse err then
        -- tx receipt is not available yet: `continue` runs `time.Sleep(time.Second)`
        let rest := validateLoop env tx (i + 1) (elapsed + env.queryNanos i + second + env.gap (i + 1))
        (rest.1, .transactionReceipt (env.txHash tx) :: .sleep second :: rest.2)
      else
        (some (.errorfW .couldNotRetrieveReceipt err), [.transactionReceipt (env.txHash tx)])
    | .ok receipt =>
      match env.marshalReceipt receipt with
      | some err =>
        (some (.errorfW .couldNotMarshalReceipt err), [.transactionReceipt (env.txHash tx)])
      | none =>
        if receipt.Status ≠ 1 then
          (some (.errorf .txStatusNot1), [.transactionReceipt (env.txHash tx), .println receipt])
        else
          (none, [.transactionReceipt (env.txHash tx), .println receipt])
  else
    (some (.errorf .unableToFetchReceipt), [])
termination_by _timeout - elapsed
decreasing_by
  simp only [second]
  omega

/-- `Faucet.validateTx`. -/
def validateTx (env : Env) (tx : Transaction) : Option Error × List Event :=
  validateLoop env tx 0 (env.gap 0)

/-- `Faucet.Fund`. -/
def Faucet.Fund (f : Faucet) (env : Env) (address : Address) (token : String) :
    Option Error × Faucet × List Event :=
  if token = OBXNativeToken then
    match f.fundNativeToken env address with
    | (.failed _ err, f', trace) => (some err, f', trace)
    | (.done signedTx, f', trace) =>
      match env.marshalTx with
      | some err => (some err, f', trace)
      | none =>
        match validateTx env signedTx with
        | (some err, polled) =>
          (some (.errorfW .unableToValidateTx err), f',
            trace ++ .printf address signedTx :: polled)
        | (none, polled) => (none, f', trace ++ .printf address signedTx :: polled)
  else
    (some (.errorf .tokenNotFundable), f, [])

/-- The receipt query answered with the recognised "not yet available" condition. -/
def isNotYet : Except Error Receipt → Bool
  | .error err => errorsIsErrNilResponse err
  | .ok _ => false

/-- The value of `time.Since(now)` when the loop condition is evaluated before the
`k`-th query, every earlier iteration having ended in `continue`. -/
def elapsedAt (env : Env) : Nat → Nat
  | 0 => env.gap 0
  | k + 1 => elapsedAt env k + env.queryNanos k + second + env.gap (k + 1)

/-- The loop of `validateTx` gets to the evaluation of its condition before the `k`-th
query: each earlier iteration passed the condition and ended in `continue`. -/
def reaches (env : Env) (k : Nat) : Prop :=
  ∀ j < k, elapsedAt env j < _timeout ∧ isNotYet (env.transactionReceipt j) = true

instance reachesDecidable (env : Env) (k : Nat) : Decidable (reaches env k) := by
  unfold reaches
  infer_instance

/-- The events of `k` iterations that end in `continue`: a receipt query, then the
pause of one second. -/
def pollTrace (hash : Nat) : Nat → List Event
  | 0 => []
  | k + 1 => pollTrace hash k ++ [.transactionReceipt hash, .sleep second]

/-- The event is a receipt query. -/
def isReceiptQuery : Event → Bool
  | .transactionReceipt _ => true
  | _ => false

/-- Number of receipt queries in a trace. -/
def countQueries (trace : List Event) : Nat :=
  trace.countP isReceiptQuery

/-- Total pause in a trace, in nanoseconds requested from `time.Sleep`. -/
def sleepNanos : List Event → Nat
  | [] => 0
  | .sleep d :: rest => d + sleepNanos rest
  | _ :: rest => sleepNanos rest

/-- A sequence of calls of `fundNativeToken` on one faucet. Their bodies run one at a
time under `fundMutex`; the `i`-th body to run is answered by the `i`-th element of
`calls`. Returns the results in that order and the faucet after the last call. -/
def fundAll (f : Faucet) : List (Env × Address) → List NativeResult × Faucet
  | [] => ([], f)
  | (env, address) :: calls =>
    let first := f.fundNativeToken env address
    let others := fundAll first.2.1 calls
    (first.1 :: others.1, others.2)

/-- The `Nonce` fields of the transactions of the calls that submitted successfully. -/
def submittedNonces (results : List NativeResult) : List Nat :=
  results.filterMap fun
    | .done signedTx => some signedTx.inner.Nonce
    | .failed _ _ => none

/-- The environment with the outcomes of the two serialisation steps replaced. -/
def withMarshal (env : Env) (marshalTx : Option Error) (marshalReceipt : Receipt → Option Error) :
    Env :=
  { env with marshalTx := marshalTx, marshalReceipt := marshalReceipt }

/-- The native transfer `fundNativeToken` builds for cached nonce `nonce`, signed. -/
def nativeTx (nonce : Nat) (address : Address) (sig : Signature) : Transaction :=
  { inner := { Nonce := nonce, GasPrice := 225, Gas := 21000, To := address,
               Value := 100000 * Ether },
    sig := sig }

/-! ## Example answers of the outside world -/

/-- Recipient of the scenarios. -/
def addrA : Address := 10

/-- Second recipient of the scenarios. -/
def addrB : Address := 11

/-- A signature. -/
def sigA : Signature := { V := 27, R := 1, S := 2 }

/-- The node reports nonce `n` and accepts the transaction; the receipt is "not yet
available" twice, then has status success; queries take no time and every pause
lasts one second. -/
def envAccept (n : Nat) : Env :=
  { nonceAt := .ok n
    signTransaction := .ok sigA
    sendTransaction := none
    marshalTx := none
    txHash := fun tx => 1000 + tx.inner.Nonce
    transactionReceipt := fun i => if i < 2 then .error .ErrNilResponse else .ok { Status := 1 }
    marshalReceipt := fun _ => none
    queryNanos := fun _ => 0
    gap := fun _ => 0 }

/-- As `envAccept 5`, but the node refuses the submission. -/
def envReject : Env :=
  { envAccept 5 with sendTransaction := some (.external 1) }

/-- As `envAccept 5`, but the wallet fails to sign. -/
def envSignError : Env :=
  { envAccept 5 with signTransaction := .error (.external 2) }

/-- As `envAccept 5`, but the nonce query fails. -/
def envNonceError : Env :=
  { envAccept 5 with nonceAt := .error (.external 4) }

/-- A receipt encoder that fails on every receipt whose status is not 1. -/
def marshalStatusOne (r : Receipt) : Option Error :=
  if r.Status = 1 then none else some (.external 7)

/-- As `envAccept 5`, but the first receipt query takes 31 seconds and returns a receipt
with status success. -/
def envSlow : Env :=
  { envAccept 5 with
    transactionReceipt := fun _ => .ok { Status := 1 }
    queryNanos := fun _ => 31 * second }

/-- As `envAccept 5`, but the third receipt query fails with an error that is not "not
yet available". -/
def envHardError : Env :=
  { envAccept 5 with
    transactionReceipt := fun i => if i < 2 then .error .ErrNilResponse else .error (.external 3) }

/-- As `envAccept 5`, but the third receipt has status 0. -/
def envReverted : Env :=
  { envAccept 5 with
    transactionReceipt := fun i => if i < 2 then .error .ErrNilResponse else .ok { Status := 0 } }

/-- As `envAccept 5`, but no receipt ever becomes available. -/
def envNever : Env :=
  { envAccept 5 with transactionReceipt := fun _ => .error .ErrNilResponse }

/-! ## The polling loop -/

theorem validateLoop_eq (env : Env) (tx : Transaction) (i elapsed : Nat) :
    validateLoop env tx i elapsed =
      if elapsed < _timeout then
        match env.transactionReceipt i with
        | .error err =>
          if errorsIsErrNilResponse err then
            ((validateLoop env tx (i + 1) (elapsed + env.queryNanos i + second + env.gap (i + 1))).1,
              .transactionReceipt (env.txHash tx) :: .sleep second ::
                (validateLoop env tx (i + 1) (elapsed + env.queryNanos i + second + env.gap (i + 1))).2)
          else
            (some (.errorfW .couldNotRetrieveReceipt err), [.transactionReceipt (env.txHash tx)])
        | .ok receipt =>
          match env.marshalReceipt receipt with
          | some err =>
            (some (.errorfW .couldNotMarshalReceipt err), [.transactionReceipt (env.txHash tx)])
          | none =>
            if receipt.Status ≠ 1 then
              (some (.errorf .txStatusNot1), [.transactionReceipt (env.txHash tx), .println receipt])
            else
              (none, [.transactionReceipt (env.txHash tx), .println receipt])
      else
        (some (.errorf .unableToFetchReceipt), []) := by
  rw [validateLoop]

theorem validateLoop_continue (env : Env) (tx : Transaction) (k : Nat)
    (ht : elapsedAt env k < _timeout) (hn : isNotYet (env.transactionReceipt k) = true) :
    validateLoop env tx k (elapsedAt env k) =
      ((validateLoop env tx (k + 1) (elapsedAt env (k + 1))).1,
        .transactionReceipt (env.txHash tx) :: .sleep second ::
          (validateLoop env tx (k + 1) (elapsedAt env (k + 1))).2) := by
  rw [validateLoop_eq, if_pos ht]
  cases hr : env.transactionReceipt k with
  | error err =>
    rw [hr] at hn
    simp only [isNotYet] at hn
    simp only [hn, if_true, elapsedAt]
  | ok r =>
    rw [hr] at hn
    simp [isNotYet] at hn

theorem validateTx_reaches (env : Env) (tx : Transaction) (k : Nat) (h : reaches env k) :
    validateTx env tx =
      ((validateLoop env tx k (elapsedAt env k)).1,
        pollTrace (env.txHash tx) k ++ (validateLoop env tx k (elapsedAt env k)).2) := by
  induction k with
  | zero => simp [validateTx, pollTrace, elapsedAt]
  | succ k ih =>
    have hk : reaches env k := fun j hj => h j (Nat.lt_succ_of_lt hj)
    have hlast := h k (Nat.lt_succ_self k)
    rw [ih hk, validateLoop_continue env tx k hlast.1 hlast.2]
    simp [pollTrace]

theorem elapsedAt_ge (env : Env) (k : Nat) : k * second ≤ elapsedAt env k := by
  induction k with
  | zero => simp
  | succ k ih =>
    simp only [elapsedAt]
    have : (k + 1) * second = k * second + second := by ring
    omega

theorem exists_exit (env : Env) :
    ∃ k, k ≤ 30 ∧ reaches env k ∧
      ¬ (elapsedAt env k < _timeout ∧ isNotYet (env.transactionReceipt k) = true) := by
  have hex : ∃ k, ¬ (elapsedAt env k < _timeout ∧ isNotYet (env.transactionReceipt k) = true) := by
    refine ⟨30, fun h => ?_⟩
    have := elapsedAt_ge env 30
    have h1 := h.1
    simp only [_timeout] at h1
    omega
  refine ⟨Nat.find hex, ?_, ?_, Nat.find_spec hex⟩
  · apply Nat.find_min'
    intro h
    have := elapsedAt_ge env 30
    have h1 := h.1
    simp only [_timeout] at h1
    omega
  · intro j hj
    have := Nat.find_min hex hj
    exact not_not.mp this

theorem countQueries_pollTrace (hash k : Nat) : countQueries (pollTrace hash k) = k := by
  induction k with
  | zero => rfl
  | succ k ih =>
    simp only [countQueries] at ih
    simp [countQueries, pollTrace, List.countP_append, ih, isReceiptQuery]

theorem sleepNanos_append (xs ys : List Event) :
    sleepNanos (xs ++ ys) = sleepNanos xs + sleepNanos ys := by
  induction xs with
  | nil => simp [sleepNanos]
  | cons x xs ih => cases x <;> simp [sleepNanos, ih, Nat.add_assoc]

theorem sleepNanos_pollTrace (hash k : Nat) : sleepNanos (pollTrace hash k) = k * second := by
  induction k with
  | zero => simp [pollTrace, sleepNanos]
  | succ k ih =>
    simp only [pollTrace, sleepNanos_append, ih, sleepNanos]
    ring

theorem validateLoop_timeout (env : Env) (tx : Transaction) (i elapsed : Nat)
    (h : ¬ elapsed < _timeout) :
    validateLoop env tx i elapsed = (some (.errorf .unableToFetchReceipt), []) := by
  rw [validateLoop_eq, if_neg h]

theorem validateLoop_receipt (env : Env) (tx : Transaction) (i elapsed : Nat) (r : Receipt)
    (h : elapsed < _timeout) (hr : env.transactionReceipt i = .ok r) :
    validateLoop env tx i elapsed =
      match env.marshalReceipt r with
      | some err =>
        (some (.errorfW .couldNotMarshalReceipt err), [.transactionReceipt (env.txHash tx)])
      | none =>
        if r.Status ≠ 1 then
          (some (.errorf .txStatusNot1), [.transactionReceipt (env.txHash tx), .println r])
        else
          (none, [.transactionReceipt (env.txHash tx), .println r]) := by
  rw [validateLoop_eq, if_pos h, hr]

theorem validateLoop_hard_error (env : Env) (tx : Transaction) (i elapsed : Nat) (err : Error)
    (h : elapsed < _timeout) (hr : env.transactionReceipt i = .error err)
    (hn : errorsIsErrNilResponse err = false) :
    validateLoop env tx i elapsed =
      (some (.errorfW .couldNotRetrieveReceipt err), [.transactionReceipt (env.txHash tx)]) := by
  rw [validateLoop_eq, if_pos h, hr]
  simp [hn]

theorem elapsedAt_ideal (env : Env) (hgap : ∀ i, env.gap i = 0) (hq : ∀ i, env.queryNanos i = 0)
    (k : Nat) : elapsedAt env k = k * second := by
  induction k with
  | zero => simp [elapsedAt, hgap]
  | succ k ih =>
    simp only [elapsedAt, ih, hgap, hq]
    ring

/-! ## Fund: helper lemmas -/

theorem Fund_other_token (f : Faucet) (env : Env) (address : Address) (token : String)
    (h : token ≠ "obx") :
    f.Fund env address token = (some (.errorf .tokenNotFundable), f, []) := by
  simp [Faucet.Fund, OBXNativeToken, h]

theorem Fund_of_failed (f f' : Faucet) (env : Env) (address : Address)
    (signedTx : Option Transaction) (err : Error) (trace : List Event)
    (h : f.fundNativeToken env address = (.failed signedTx err, f', trace)) :
    f.Fund env address "obx" = (some err, f', trace) := by
  simp [Faucet.Fund, OBXNativeToken, h]

theorem Fund_of_marshal_error (f f' : Faucet) (env : Env) (address : Address)
    (signedTx : Transaction) (trace : List Event) (err : Error)
    (h : f.fundNativeToken env address = (.done signedTx, f', trace))
    (hm : env.marshalTx = some err) :
    f.Fund env address "obx" = (some err, f', trace) := by
  simp [Faucet.Fund, OBXNativeToken, h, hm]

theorem Fund_of_done (f f' : Faucet) (env : Env) (address : Address)
    (signedTx : Transaction) (trace : List Event)
    (h : f.fundNativeToken env address = (.done signedTx, f', trace))
    (hm : env.marshalTx = none) :
    f.Fund env address "obx" =
      ((validateTx env signedTx).1.map (Error.errorfW .unableToValidateTx), f',
        trace ++ .printf address signedTx :: (validateTx env signedTx).2) := by
  simp only [Faucet.Fund, OBXNativeToken, h, hm, if_true]
  rcases hv : validateTx env signedTx with ⟨_ | e, polled⟩ <;> simp

theorem elapsedAt_withMarshal (env : Env) (mt : Option Error) (mr : Receipt → Option Error)
    (k : Nat) : elapsedAt (withMarshal env mt mr) k = elapsedAt env k := by
  induction k with
  | zero => rfl
  | succ k ih =>
    simp only [elapsedAt, ih]
    rfl

theorem reaches_withMarshal (env : Env) (mt : Option Error) (mr : Receipt → Option Error)
    (k : Nat) (h : reaches env k) : reaches (withMarshal env mt mr) k := by
  intro j hj
  rw [elapsedAt_withMarshal]
  exact h j hj

theorem validateTx_marshal_reached (env : Env) (mt mt' : Option Error)
    (mr mr' : Receipt → Option Error) (tx : Transaction)
    (hmr : ∀ k r, reaches env k → elapsedAt env k < _timeout →
      env.transactionReceipt k = .ok r → mr r = none)
    (hmr' : ∀ k r, reaches env k → elapsedAt env k < _timeout →
      env.transactionReceipt k = .ok r → mr' r = none) :
    validateTx (withMarshal env mt mr) tx = validateTx (withMarshal env mt' mr') tx := by
  obtain ⟨k, -, hreach, hexit⟩ := exists_exit env
  rw [validateTx_reaches _ tx k (reaches_withMarshal env mt mr k hreach),
    validateTx_reaches _ tx k (reaches_withMarshal env mt' mr' k hreach)]
  simp only [elapsedAt_withMarshal]
  have htx : (withMarshal env mt mr).txHash tx = (withMarshal env mt' mr').txHash tx := rfl
  rw [htx]
  by_cases ht : elapsedAt env k < _timeout
  · cases hr : env.transactionReceipt k with
    | error err =>
      have hn : errorsIsErrNilResponse err = false := by
        cases hb : errorsIsErrNilResponse err with
        | false => rfl
        | true =>
          exfalso
          apply hexit
          refine ⟨ht, ?_⟩
          rw [hr]
          exact hb
      rw [validateLoop_hard_error (withMarshal env mt mr) tx k _ err ht hr hn,
        validateLoop_hard_error (withMarshal env mt' mr') tx k _ err ht hr hn]
      rfl
    | ok r =>
      rw [validateLoop_receipt (withMarshal env mt mr) tx k _ r ht hr,
        validateLoop_receipt (withMarshal env mt' mr') tx k _ r ht hr]
      simp [withMarshal, hmr k r hreach ht hr, hmr' k r hreach ht hr]
  · rw [validateLoop_timeout (withMarshal env mt mr) tx k _ ht,
      validateLoop_timeout (withMarshal env mt' mr') tx k _ ht]

theorem Fund_faucet (f : Faucet) (env : Env) (address : Address) :
    (f.Fund env address "obx").2.1 = (f.fundNativeToken env address).2.1 := by
  rcases hnat : f.fundNativeToken env address with ⟨res, f', trace⟩
  cases res with
  | failed signedTx err => rw [Fund_of_failed f f' env address signedTx err trace hnat]
  | done signedTx =>
    cases hm : env.marshalTx with
    | some e => rw [Fund_of_marshal_error f f' env address signedTx trace e hnat hm]
    | none => rw [Fund_of_done f f' env address signedTx trace hnat hm]

/-! ## Transaction issuance (claims) -/

/-- C4: when the nonce query returns `n`, signing succeeds and the submission succeeds,
`fundNativeToken` submits the transfer whose `Nonce` is the cached nonce held before
the call, and the cached nonce after the call is `n + 1` as a 64-bit unsigned value,
whatever it was before. -/
theorem fundNativeToken_success (f : Faucet) (env : Env) (address : Address) (n : Nat)
    (sig : Signature) (hn : env.nonceAt = .ok n) (hs : env.signTransaction = .ok sig)
    (hsend : env.sendTransaction = none) :
    f.fundNativeToken env address =
      (.done (nativeTx f.nonce address sig), { nonce := (n + 1) % 2 ^ 64 },
        [.nonceAt, .signTransaction (nativeTx f.nonce address sig).inner,
          .sendTransaction (nativeTx f.nonce address sig)]) ∧
    (nativeTx f.nonce address sig).inner.Nonce = f.nonce := by
  simp [Faucet.fundNativeToken, hn, hs, hsend, nativeTx]

/-- Witness of C4: the faucet starts with on-chain nonce 5 and the node reports 5; the
transaction carries nonce 5 and the cached nonce becomes 6. -/
theorem fundNativeToken_success_witness :
    NewFaucet none (.ok 5) = .ok { nonce := 5 } ∧
    (envAccept 5).nonceAt = .ok 5 ∧ (envAccept 5).signTransaction = .ok sigA ∧
    (envAccept 5).sendTransaction = none ∧
    (Faucet.fundNativeToken { nonce := 5 } (envAccept 5) addrA =
      (.done (nativeTx 5 addrA sigA), { nonce := 6 },
        [.nonceAt, .signTransaction (nativeTx 5 addrA sigA).inner,
          .sendTransaction (nativeTx 5 addrA sigA)]) ∧
    (nativeTx 5 addrA sigA).inner.Nonce = 5) :=
  ⟨rfl, rfl, rfl, rfl, fundNativeToken_success { nonce := 5 } (envAccept 5) addrA 5 sigA rfl rfl rfl⟩

/-- C3: a call of `fundNativeToken` whose nonce query errors, whose signing errors or
whose submission errors returns that error (the nonce-query error wrapped) and leaves
the cached nonce as it was before the call, so the next call signs a transaction with
the same nonce; when it is the submission that errors, the signed transaction is
returned together with the error. -/
theorem fundNativeToken_failure (f : Faucet) (env : Env) (address : Address) :
    (∀ e, env.nonceAt = .error e →
      f.fundNativeToken env address =
        (.failed none (.errorfW .unableToFetchNonce e), f, [.nonceAt])) ∧
    (∀ n e, env.nonceAt = .ok n → env.signTransaction = .error e →
      f.fundNativeToken env address =
        (.failed none e, f,
          [.nonceAt,
            .signTransaction { Nonce := f.nonce, GasPrice := 225, Gas := 21000, To := address,
                               Value := 100000 * Ether }])) ∧
    (∀ n sig e, env.nonceAt = .ok n → env.signTransaction = .ok sig →
      env.sendTransaction = some e →
      f.fundNativeToken env address =
        (.failed (some (nativeTx f.nonce address sig)) e, f,
          [.nonceAt, .signTransaction (nativeTx f.nonce address sig).inner,
            .sendTransaction (nativeTx f.nonce address sig)])) ∧
    (((∃ e, env.nonceAt = .error e) ∨
      (∃ n e, env.nonceAt = .ok n ∧ env.signTransaction = .error e) ∨
      (∃ n sig e, env.nonceAt = .ok n ∧ env.signTransaction = .ok sig ∧
        env.sendTransaction = some e)) →
      (f.fundNativeToken env address).2.1.nonce = f.nonce ∧
      ∀ (env' : Env) (address' : Address) (tx : LegacyTx),
        Event.signTransaction tx ∈
          ((f.fundNativeToken env address).2.1.fundNativeToken env' address').2.2 →
        tx.Nonce = f.nonce) := by
  have h1 : ∀ e, env.nonceAt = .error e →
      f.fundNativeToken env address =
        (.failed none (.errorfW .unableToFetchNonce e), f, [.nonceAt]) := by
    intro e he
    simp [Faucet.fundNativeToken, he]
  have h2 : ∀ n e, env.nonceAt = .ok n → env.signTransaction = .error e →
      f.fundNativeToken env address =
        (.failed none e, f,
          [.nonceAt,
            .signTransaction { Nonce := f.nonce, GasPrice := 225, Gas := 21000, To := address,
                               Value := 100000 * Ether }]) := by
    intro n e hn he
    simp [Faucet.fundNativeToken, hn, he]
  have h3 : ∀ n sig e, env.nonceAt = .ok n → env.signTransaction = .ok sig →
      env.sendTransaction = some e →
      f.fundNativeToken env address =
        (.failed (some (nativeTx f.nonce address sig)) e, f,
          [.nonceAt, .signTransaction (nativeTx f.nonce address sig).inner,
            .sendTransaction (nativeTx f.nonce address sig)]) := by
    intro n sig e hn hs he
    simp [Faucet.fundNativeToken, hn, hs, he, nativeTx]
  refine ⟨h1, h2, h3, ?_⟩
  intro hcause
  have hsame : (f.fundNativeToken env address).2.1 = f := by
    rcases hcause with ⟨e, he⟩ | ⟨n, e, hn, he⟩ | ⟨n, sig, e, hn, hs, he⟩
    · rw [h1 e he]
    · rw [h2 n e hn he]
    · rw [h3 n sig e hn hs he]
  rw [hsame]
  refine ⟨rfl, ?_⟩
  intro env' address' tx
  simp only [Faucet.fundNativeToken]
  cases env'.nonceAt <;> cases env'.signTransaction <;> cases env'.sendTransaction <;>
    simp <;> intro h <;> simp [h]

/-- Witness of C3: the node refuses the submission, the wallet fails to sign, the nonce
query fails; the cached nonce stays 5 each time. -/
theorem fundNativeToken_failure_witness :
    Faucet.fundNativeToken { nonce := 5 } envReject addrA =
      (.failed (some (nativeTx 5 addrA sigA)) (.external 1), { nonce := 5 },
        [.nonceAt, .signTransaction (nativeTx 5 addrA sigA).inner,
          .sendTransaction (nativeTx 5 addrA sigA)]) ∧
    Faucet.fundNativeToken { nonce := 5 } envSignError addrA =
      (.failed none (.external 2), { nonce := 5 },
        [.nonceAt,
          .signTransaction { Nonce := 5, GasPrice := 225, Gas := 21000, To := addrA,
                             Value := 100000 * Ether }]) ∧
    Faucet.fundNativeToken { nonce := 5 } envNonceError addrA =
      (.failed none (.errorfW .unableToFetchNonce (.external 4)), { nonce := 5 },
        [.nonceAt]) ∧
    (Faucet.fundNativeToken { nonce := 5 } envReject addrA).2.1.nonce = 5 :=
  ⟨(fundNativeToken_failure { nonce := 5 } envReject addrA).2.2.1 5 sigA (.external 1)
      rfl rfl rfl,
    (fundNativeToken_failure { nonce := 5 } envSignError addrA).2.1 5 (.external 2) rfl rfl,
    (fundNativeToken_failure { nonce := 5 } envNonceError addrA).1 (.external 4) rfl,
    ((fundNativeToken_failure { nonce := 5 } envReject addrA).2.2.2
      (Or.inr (Or.inr ⟨5, sigA, .external 1, rfl, rfl, rfl⟩))).1⟩

/-- C1 (the code at the failing input): the faucet starts with nonce 5 and three calls
in a burst are submitted successfully, the node reporting the on-chain nonce 5 to each
of them (the earlier transactions are still pending); the second and the third
transaction both carry nonce 6. -/
theorem fundNativeToken_reuses_nonce :
    submittedNonces
      (fundAll { nonce := 5 }
        [(envAccept 5, addrA), (envAccept 5, addrB), (envAccept 5, addrA)]).1 = [5, 6, 6] := by
  decide

/-- C2 (the code at the failing input): the faucet starts with nonce 5 and two calls
are submitted successfully, the node reporting the on-chain nonce 5 to both; the
cached nonce is then 6, not 5 + 2. -/
theorem fundNativeToken_cached_nonce_lags :
    NewFaucet none (.ok 5) = .ok { nonce := 5 } ∧
    (fundAll { nonce := 5 } [(envAccept 5, addrA), (envAccept 5, addrB)]).1 =
      [.done (nativeTx 5 addrA sigA), .done (nativeTx 6 addrB sigA)] ∧
    (fundAll { nonce := 5 } [(envAccept 5, addrA), (envAccept 5, addrB)]).2 = { nonce := 6 } :=
  ⟨rfl, by decide, by decide⟩

/-! ## Fund -/

/-- C5: for every token other than "obx", `Fund` returns the error "token not fundable
atm", has no interaction at all with the node or the wallet (no nonce query, no
signing, no submission, no receipt query), and leaves the faucet as it was. -/
theorem Fund_unsupported_token (f : Faucet) (env : Env) (address : Address) (token : String)
    (h : token ≠ "obx") :
    f.Fund env address token = (some (.errorf .tokenNotFundable), f, []) := by
  simp [Faucet.Fund, OBXNativeToken, h]

/-- Witness of C5: `Fund(addrB, "usdc")`. -/
theorem Fund_unsupported_token_witness :
    "usdc" ≠ "obx" ∧
    Faucet.Fund { nonce := 5 } (envAccept 5) addrB "usdc" =
      (some (.errorf .tokenNotFundable), { nonce := 5 }, []) :=
  ⟨by decide, Fund_unsupported_token { nonce := 5 } (envAccept 5) addrB "usdc" (by decide)⟩

/-! ## Confirmation polling (claims) -/

/-- C7: when the `k`-th receipt query is issued and returns a receipt (whose
`MarshalJSON`, as for every receipt of go-ethereum, returns no error), `validateTx`
returns success if the receipt's `Status` is 1 and the error "tx status is not 0x1"
for every other status; in both cases that query is the last one: the call made
`k + 1` receipt queries and did not pause after the last. -/
theorem validateTx_receipt (env : Env) (tx : Transaction) (k : Nat) (r : Receipt)
    (hreach : reaches env k) (ht : elapsedAt env k < _timeout)
    (hr : env.transactionReceipt k = .ok r) (hm : env.marshalReceipt r = none) :
    (r.Status = 1 →
      validateTx env tx =
        (none, pollTrace (env.txHash tx) k ++
          [.transactionReceipt (env.txHash tx), .println r])) ∧
    (r.Status ≠ 1 →
      validateTx env tx =
        (some (.errorf .txStatusNot1), pollTrace (env.txHash tx) k ++
          [.transactionReceipt (env.txHash tx), .println r])) ∧
    countQueries (validateTx env tx).2 = k + 1 := by
  have hrun := validateTx_reaches env tx k hreach
  rw [validateLoop_receipt env tx k _ r ht hr, hm] at hrun
  have hc := countQueries_pollTrace (env.txHash tx) k
  simp only [countQueries] at hc
  refine ⟨?_, ?_, ?_⟩
  · intro hs
    rw [hrun]
    simp [hs]
  · intro hs
    rw [hrun]
    simp [hs]
  · rw [hrun]
    by_cases hs : r.Status = 1 <;>
      simp [hs, countQueries, List.countP_append, List.countP_cons, hc, isReceiptQuery]

/-- Witness of C7: after two answers "not yet available", the third receipt query
returns a receipt with status 0 in one run and with status 1 in another. -/
theorem validateTx_receipt_witness :
    reaches envReverted 2 ∧ elapsedAt envReverted 2 < _timeout ∧
    envReverted.transactionReceipt 2 = .ok { Status := 0 } ∧
    validateTx envReverted (nativeTx 5 addrA sigA) =
      (some (.errorf .txStatusNot1), pollTrace 1005 2 ++
        [.transactionReceipt 1005, .println { Status := 0 }]) ∧
    validateTx (envAccept 5) (nativeTx 5 addrA sigA) =
      (none, pollTrace 1005 2 ++ [.transactionReceipt 1005, .println { Status := 1 }]) :=
  ⟨by decide, by decide, rfl,
    (validateTx_receipt envReverted (nativeTx 5 addrA sigA) 2 { Status := 0 }
      (by decide) (by decide) rfl rfl).2.1 (by decide),
    (validateTx_receipt (envAccept 5) (nativeTx 5 addrA sigA) 2 { Status := 1 }
      (by decide) (by decide) rfl rfl).1 rfl⟩

/-- C8: when the `k`-th receipt query is issued and answered with an error, then
* if the error is "not yet available", the call goes on as the loop does from the next
  evaluation of its condition, after one pause of a second: it ends as that
  remainder ends, another query follows if the timeout has not elapsed, and the call
  fails with the timeout error, without a further query, if it has;
* if it is any other error, `validateTx` fails at once with the receipt-query error
  wrapping it, this query being the last. -/
theorem validateTx_error_response (env : Env) (tx : Transaction) (k : Nat) (err : Error)
    (hreach : reaches env k) (ht : elapsedAt env k < _timeout)
    (hr : env.transactionReceipt k = .error err) :
    (errorsIsErrNilResponse err = true →
      validateTx env tx =
        ((validateLoop env tx (k + 1) (elapsedAt env (k + 1))).1,
          pollTrace (env.txHash tx) k ++
            [.transactionReceipt (env.txHash tx), .sleep second] ++
            (validateLoop env tx (k + 1) (elapsedAt env (k + 1))).2) ∧
      (elapsedAt env (k + 1) < _timeout →
        ∃ rest, (validateTx env tx).2 =
          pollTrace (env.txHash tx) k ++
            [.transactionReceipt (env.txHash tx), .sleep second,
              .transactionReceipt (env.txHash tx)] ++ rest) ∧
      (¬ elapsedAt env (k + 1) < _timeout →
        validateTx env tx =
          (some (.errorf .unableToFetchReceipt),
            pollTrace (env.txHash tx) k ++
              [.transactionReceipt (env.txHash tx), .sleep second]))) ∧
    (errorsIsErrNilResponse err = false →
      validateTx env tx =
        (some (.errorfW .couldNotRetrieveReceipt err),
          pollTrace (env.txHash tx) k ++ [.transactionReceipt (env.txHash tx)]) ∧
      countQueries (validateTx env tx).2 = k + 1) := by
  constructor
  · intro hnil
    have hny : isNotYet (env.transactionReceipt k) = true := by
      rw [hr]
      exact hnil
    have hreach' : reaches env (k + 1) := by
      intro j hj
      rcases Nat.lt_succ_iff_lt_or_eq.mp hj with hlt | heq
      · exact hreach j hlt
      · subst heq
        exact ⟨ht, hny⟩
    have hrun := validateTx_reaches env tx (k + 1) hreach'
    simp only [pollTrace] at hrun
    refine ⟨hrun, ?_, ?_⟩
    · intro hnext
      rw [hrun]
      rw [validateLoop_eq, if_pos hnext]
      cases hr' : env.transactionReceipt (k + 1) with
      | error e =>
        by_cases he : errorsIsErrNilResponse e = true
        · simp [he]
        · simp [he]
      | ok r' =>
        cases hm : env.marshalReceipt r' with
        | some e => simp [hm]
        | none => by_cases hs : r'.Status = 1 <;> simp [hs, hm]
    · intro hnext
      rw [hrun, validateLoop_timeout env tx _ _ hnext]
      simp
  · intro hhard
    have hrun := validateTx_reaches env tx k hreach
    rw [validateLoop_hard_error env tx k _ err ht hr hhard] at hrun
    refine ⟨hrun, ?_⟩
    rw [hrun]
    have hc := countQueries_pollTrace (env.txHash tx) k
    simp only [countQueries] at hc
    simp [countQueries, List.countP_append, hc, isReceiptQuery]

/-- Witness of C8: two answers "not yet available", then another error. -/
theorem validateTx_error_response_witness :
    reaches envHardError 2 ∧ elapsedAt envHardError 2 < _timeout ∧
    envHardError.transactionReceipt 2 = .error (.external 3) ∧
    validateTx envHardError (nativeTx 5 addrA sigA) =
      (some (.errorfW .couldNotRetrieveReceipt (.external 3)),
        pollTrace 1005 2 ++ [.transactionReceipt 1005]) :=
  ⟨by decide, by decide, rfl,
    ((validateTx_error_response envHardError (nativeTx 5 addrA sigA) 2 (.external 3)
      (by decide) (by decide) rfl).2 rfl).1⟩

/-- C9: if every receipt query is answered "not yet available", `validateTx` returns
the timeout error, after at most 30 queries and not before 30 seconds have elapsed;
on the clock on which queries take no time and every pause lasts exactly one second,
it makes exactly 30 queries, pauses 30 times one second and returns when exactly 30
seconds have elapsed. -/
theorem validateTx_timeout (env : Env) (tx : Transaction)
    (hall : ∀ i, isNotYet (env.transactionReceipt i) = true) :
    (validateTx env tx).1 = some (.errorf .unableToFetchReceipt) ∧
    countQueries (validateTx env tx).2 ≤ 30 ∧
    (∃ k, k ≤ 30 ∧ (validateTx env tx).2 = pollTrace (env.txHash tx) k ∧
      _timeout ≤ elapsedAt env k ∧ ∀ j < k, elapsedAt env j < _timeout) ∧
    ((∀ i, env.gap i = 0) → (∀ i, env.queryNanos i = 0) →
      validateTx env tx =
        (some (.errorf .unableToFetchReceipt), pollTrace (env.txHash tx) 30) ∧
      countQueries (validateTx env tx).2 = 30 ∧
      sleepNanos (validateTx env tx).2 = _timeout ∧
      elapsedAt env 30 = _timeout ∧ elapsedAt env 29 < _timeout) := by
  obtain ⟨k, hk30, hreach, hexit⟩ := exists_exit env
  have hover : ¬ elapsedAt env k < _timeout := fun h => hexit ⟨h, hall k⟩
  have hrun := validateTx_reaches env tx k hreach
  rw [validateLoop_timeout env tx _ _ hover] at hrun
  simp only [List.append_nil] at hrun
  refine ⟨by rw [hrun], ?_, ⟨k, hk30, by rw [hrun], Nat.le_of_not_lt hover,
    fun j hj => (hreach j hj).1⟩, ?_⟩
  · rw [hrun]
    simp only [countQueries_pollTrace]
    exact hk30
  · intro hgap hq
    have hel := elapsedAt_ideal env hgap hq
    have hreach30 : reaches env 30 := by
      intro j hj
      refine ⟨?_, hall j⟩
      rw [hel j]
      simp only [_timeout, second]
      omega
    have hover30 : ¬ elapsedAt env 30 < _timeout := by
      rw [hel 30]
      simp [_timeout]
    have hrun30 := validateTx_reaches env tx 30 hreach30
    rw [validateLoop_timeout env tx _ _ hover30] at hrun30
    simp only [List.append_nil] at hrun30
    refine ⟨hrun30, ?_, ?_, ?_, ?_⟩
    · rw [hrun30]
      exact countQueries_pollTrace _ 30
    · rw [hrun30]
      simp only [sleepNanos_pollTrace, _timeout]
    · rw [hel 30]
      rfl
    · rw [hel 29]
      simp only [_timeout, second]
      omega

/-- Witness of C9: no receipt ever becomes available, on the clock on which queries
take no time and every pause lasts one second. -/
theorem validateTx_timeout_witness :
    (∀ i, isNotYet (envNever.transactionReceipt i) = true) ∧
    validateTx envNever (nativeTx 5 addrA sigA) =
      (some (.errorf .unableToFetchReceipt), pollTrace 1005 30) ∧
    countQueries (validateTx envNever (nativeTx 5 addrA sigA)).2 = 30 :=
  ⟨fun _ => rfl,
    ((validateTx_timeout envNever (nativeTx 5 addrA sigA) (fun _ => rfl)).2.2.2
      (fun _ => rfl) (fun _ => rfl)).1,
    ((validateTx_timeout envNever (nativeTx 5 addrA sigA) (fun _ => rfl)).2.2.2
      (fun _ => rfl) (fun _ => rfl)).2.1⟩

/-! ## Fund after submission (claims) -/

/-- C6 as amended: if `Fund` returns success then the token was "obx", the nonce query
and the signing succeeded, the transaction was submitted without error, and a
receipt query for that transaction's hash, issued before the 30-second timeout
elapsed, returned a receipt whose `Status` is 1. -/
theorem Fund_success (f : Faucet) (env : Env) (address : Address) (token : String)
    (h : (f.Fund env address token).1 = none) :
    token = "obx" ∧ env.sendTransaction = none ∧
    ∃ n sig k r, env.nonceAt = .ok n ∧ env.signTransaction = .ok sig ∧
      k < 30 ∧ reaches env k ∧ elapsedAt env k < _timeout ∧
      env.transactionReceipt k = .ok r ∧ r.Status = 1 ∧
      f.Fund env address token =
        (none, { nonce := (n + 1) % 2 ^ 64 },
          [.nonceAt, .signTransaction (nativeTx f.nonce address sig).inner,
            .sendTransaction (nativeTx f.nonce address sig),
            .printf address (nativeTx f.nonce address sig)] ++
          pollTrace (env.txHash (nativeTx f.nonce address sig)) k ++
          [.transactionReceipt (env.txHash (nativeTx f.nonce address sig)), .println r]) := by
  by_cases htok : token = "obx"
  swap
  · rw [Fund_other_token f env address token htok] at h
    simp at h
  subst htok
  refine ⟨rfl, ?_⟩
  cases hn : env.nonceAt with
  | error e =>
    rw [Fund_of_failed f f env address none (.errorfW .unableToFetchNonce e) [.nonceAt]
      (by simp [Faucet.fundNativeToken, hn])] at h
    simp at h
  | ok n =>
    cases hs : env.signTransaction with
    | error e =>
      rw [Fund_of_failed f f env address none e
        [.nonceAt, .signTransaction (nativeTx f.nonce address sigA).inner]
        (by simp [Faucet.fundNativeToken, hn, hs, nativeTx])] at h
      simp at h
    | ok sig =>
      cases hsend : env.sendTransaction with
      | some e =>
        rw [Fund_of_failed f f env address (some (nativeTx f.nonce address sig)) e
          [.nonceAt, .signTransaction (nativeTx f.nonce address sig).inner,
            .sendTransaction (nativeTx f.nonce address sig)]
          (by simp [Faucet.fundNativeToken, hn, hs, hsend, nativeTx])] at h
        simp at h
      | none =>
        have hnat : f.fundNativeToken env address =
            (.done (nativeTx f.nonce address sig), { nonce := (n + 1) % 2 ^ 64 },
              [.nonceAt, .signTransaction (nativeTx f.nonce address sig).inner,
                .sendTransaction (nativeTx f.nonce address sig)]) := by
          simp [Faucet.fundNativeToken, hn, hs, hsend, nativeTx]
        cases hm : env.marshalTx with
        | some e =>
          rw [Fund_of_marshal_error f _ env address _ _ e hnat hm] at h
          simp at h
        | none =>
          rw [Fund_of_done f _ env address _ _ hnat hm] at h ⊢
          simp only [Option.map_eq_none'] at h
          obtain ⟨k, hk30, hreach, hexit⟩ := exists_exit env
          have hrun := validateTx_reaches env (nativeTx f.nonce address sig) k hreach
          by_cases ht : elapsedAt env k < _timeout
          swap
          · rw [hrun, validateLoop_timeout _ _ k _ ht] at h
            simp at h
          have hklt : k < 30 := by
            have := elapsedAt_ge env k
            simp only [_timeout, second] at ht this
            omega
          cases hr : env.transactionReceipt k with
          | error err =>
            have hhard : errorsIsErrNilResponse err = false := by
              cases hb : errorsIsErrNilResponse err with
              | false => rfl
              | true =>
                exfalso
                apply hexit
                refine ⟨ht, ?_⟩
                rw [hr]
                exact hb
            rw [hrun, validateLoop_hard_error _ _ k _ err ht hr hhard] at h
            simp at h
          | ok r =>
            rw [validateLoop_receipt _ _ k _ r ht hr] at hrun
            cases hmr : env.marshalReceipt r with
            | some e =>
              rw [hrun, hmr] at h
              simp at h
            | none =>
              by_cases hst : r.Status = 1
              · refine ⟨rfl, n, sig, k, r, rfl, rfl, hklt, hreach, ht, hr, hst, ?_⟩
                rw [hrun, hmr]
                simp [hst]
              · rw [hrun, hmr] at h
                simp [hst] at h

/-- Witness of C6 as amended: the node answers "not yet available" twice, then a receipt
with status success, and the call returns success; the cached nonce, 5 before the
call, is 6 after it. -/
theorem Fund_success_witness :
    (Faucet.Fund { nonce := 5 } (envAccept 5) addrA "obx").1 = none ∧
    (Faucet.Fund { nonce := 5 } (envAccept 5) addrA "obx").2.1 = { nonce := 6 } ∧
    ("obx" = "obx" ∧ (envAccept 5).sendTransaction = none ∧
    ∃ n sig k r, (envAccept 5).nonceAt = .ok n ∧ (envAccept 5).signTransaction = .ok sig ∧
      k < 30 ∧ reaches (envAccept 5) k ∧ elapsedAt (envAccept 5) k < _timeout ∧
      (envAccept 5).transactionReceipt k = .ok r ∧ r.Status = 1 ∧
      Faucet.Fund { nonce := 5 } (envAccept 5) addrA "obx" =
        (none, { nonce := (n + 1) % 2 ^ 64 },
          [.nonceAt, .signTransaction (nativeTx 5 addrA sig).inner,
            .sendTransaction (nativeTx 5 addrA sig),
            .printf addrA (nativeTx 5 addrA sig)] ++
          pollTrace ((envAccept 5).txHash (nativeTx 5 addrA sig)) k ++
          [.transactionReceipt ((envAccept 5).txHash (nativeTx 5 addrA sig)), .println r])) := by
  have hv : validateTx (envAccept 5) (nativeTx 5 addrA sigA) =
      (none, pollTrace 1005 2 ++ [.transactionReceipt 1005, .println { Status := 1 }]) := by
    rw [validateTx_reaches (envAccept 5) _ 2 (by decide),
      validateLoop_receipt (envAccept 5) _ 2 _ { Status := 1 } (by decide) rfl]
    rfl
  have hrun : Faucet.Fund { nonce := 5 } (envAccept 5) addrA "obx" =
      (none, { nonce := 6 },
        [.nonceAt, .signTransaction (nativeTx 5 addrA sigA).inner,
          .sendTransaction (nativeTx 5 addrA sigA)] ++
        .printf addrA (nativeTx 5 addrA sigA) ::
          (pollTrace 1005 2 ++ [.transactionReceipt 1005, .println { Status := 1 }])) := by
    rw [Fund_of_done { nonce := 5 } { nonce := 6 } (envAccept 5) addrA (nativeTx 5 addrA sigA)
      [.nonceAt, .signTransaction (nativeTx 5 addrA sigA).inner,
        .sendTransaction (nativeTx 5 addrA sigA)] rfl rfl, hv]
    rfl
  have hnone : (Faucet.Fund { nonce := 5 } (envAccept 5) addrA "obx").1 = none := by
    rw [hrun]
  exact ⟨hnone, by rw [hrun], Fund_success { nonce := 5 } (envAccept 5) addrA "obx" hnone⟩

/-- C6 as stated fails: the first receipt query takes 31 seconds and returns a receipt
with status success; `Fund` returns success although no receipt query returned
before the 30-second timeout elapsed. -/
theorem Fund_success_late_receipt_counterexample :
    (Faucet.Fund { nonce := 5 } envSlow addrA "obx").1 = none ∧
    ∀ k, ¬ (elapsedAt envSlow k + envSlow.queryNanos k < _timeout) := by
  constructor
  · have hv : validateTx envSlow (nativeTx 5 addrA sigA) =
        (none, [.transactionReceipt 1005, .println { Status := 1 }]) := by
      rw [validateTx, validateLoop_receipt envSlow _ 0 _ { Status := 1 } (by decide) rfl]
      rfl
    rw [Fund_of_done { nonce := 5 } { nonce := 6 } envSlow addrA (nativeTx 5 addrA sigA)
      [.nonceAt, .signTransaction (nativeTx 5 addrA sigA).inner,
        .sendTransaction (nativeTx 5 addrA sigA)] rfl rfl, hv]
    rfl
  · intro k h
    have hq : envSlow.queryNanos k = 31 * second := rfl
    rw [hq] at h
    simp only [_timeout, second] at h
    omega

/-- C10: logging is observational only. For every native-token `Fund` call the cached
nonce after the call is the same whatever the two serialisation steps answer; and two
runs with the same answers of the node, in each of which the serialisation of the
signed transaction and of every receipt the polling loop receives returns no error
(as the encoders of go-ethereum do), return the same value, leave the same cached
nonce and have the same interactions, whatever else their serialisers would answer. -/
theorem Fund_marshal (f : Faucet) (env : Env) (address : Address) (mt mt' : Option Error)
    (mr mr' : Receipt → Option Error) :
    (f.Fund (withMarshal env mt mr) address "obx").2.1 =
      (f.Fund (withMarshal env mt' mr') address "obx").2.1 ∧
    (mt = none → mt' = none →
      (∀ k r, reaches env k → elapsedAt env k < _timeout →
        env.transactionReceipt k = .ok r → mr r = none) →
      (∀ k r, reaches env k → elapsedAt env k < _timeout →
        env.transactionReceipt k = .ok r → mr' r = none) →
      f.Fund (withMarshal env mt mr) address "obx" =
        f.Fund (withMarshal env mt' mr') address "obx") := by
  constructor
  · rw [Fund_faucet, Fund_faucet]
    rfl
  · intro hmt hmt' hmr hmr'
    subst hmt
    subst hmt'
    rcases hnat : f.fundNativeToken env address with ⟨res, f', trace⟩
    have h1 : f.fundNativeToken (withMarshal env none mr) address = (res, f', trace) := hnat
    have h2 : f.fundNativeToken (withMarshal env none mr') address = (res, f', trace) := hnat
    cases res with
    | failed signedTx err =>
      rw [Fund_of_failed f f' _ address signedTx err trace h1,
        Fund_of_failed f f' _ address signedTx err trace h2]
    | done signedTx =>
      rw [Fund_of_done f f' _ address signedTx trace h1 rfl,
        Fund_of_done f f' _ address signedTx trace h2 rfl,
        validateTx_marshal_reached env none none mr mr' signedTx hmr hmr']

/-- Witness of C10: the node answers "not yet available" twice, then a receipt with
status success; one run has an encoder that never fails, the other an encoder that
would fail on receipts of another status; both return the same. -/
theorem Fund_marshal_witness :
    marshalStatusOne { Status := 0 } = some (.external 7) ∧
    Faucet.Fund { nonce := 5 } (withMarshal (envAccept 5) none fun _ => none) addrA "obx" =
      Faucet.Fund { nonce := 5 } (withMarshal (envAccept 5) none marshalStatusOne) addrA "obx" :=
  ⟨rfl,
    (Fund_marshal { nonce := 5 } (envAccept 5) addrA none none (fun _ => none)
      marshalStatusOne).2 rfl rfl (fun _ _ _ _ _ => rfl)
      (fun k r _ _ hr => by
        by_cases hk : k < 2
        · simp [envAccept, hk] at hr
        · simp only [envAccept, hk, if_false] at hr
          cases hr
          rfl)⟩
